import Mathlib

/-!
# Banking-Website: validation layer and ledger state machine

A shallow embedding of `src/app.js`, `src/utils.js` and `src/constants.js`.

Conventions of the embedding
* JavaScript strings are Lean strings, handled as lists of characters.
* JavaScript numbers are modelled exactly: a finite number is a rational (`ℚ`), and the
  special values `NaN`, `Infinity`, `-Infinity` are separate constructors of `JsNum`.
  Binary rounding of IEEE doubles is not modelled.
* The DOM is not modelled.  A call `showError(id, msg)` is recorded as a pair `(id, tag)`
  in the report a handler returns, where `tag : Err` names the message.
* Values read from the environment (`nowISO()`, `Math.random()`) are parameters.
-/

namespace Banking

/-! ## src/constants.js -/

namespace VALIDATION

def NAME_MIN_LENGTH : Nat := 2
def NAME_MAX_LENGTH : Nat := 50
def PIN_LENGTH : Nat := 4
def AMOUNT_MIN : ℚ := 1
def AMOUNT_MAX : ℚ := 10000000
def AMOUNT_DECIMALS : Nat := 2
def LARGE_TRANSACTION_THRESHOLD : ℚ := 10000
def DEBOUNCE_TIME : Nat := 600

end VALIDATION

/-- The messages of `ERRORS` (and the literal messages used in `app.js`), as tags. -/
inductive Err where
  | AMOUNT_REQUIRED
  | NOT_A_NUMBER            -- 'Enter a valid number'
  | AMOUNT_NEGATIVE
  | AMOUNT_TOO_LARGE
  | AMOUNT_TOO_MANY_DECIMALS
  | INSUFFICIENT_BALANCE
  | INVALID_MOBILE
  | INVALID_MOBILE_CHARS
  | SELF_TRANSFER
  | NO_ACCOUNT              -- 'No account found.'
  | MOBILE_NOT_REGISTERED   -- 'Mobile number not registered.'
  | INCORRECT_PIN           -- 'Incorrect PIN.'
  | PLEASE_WAIT             -- toast 'Please wait...'
  | ENTER_NAME              -- 'Enter your name'
  | NAME_TOO_SHORT
  | NAME_TOO_LONG
  | INVALID_NAME
  | INVALID_PIN
  | WRONG_PIN
  | FILL_BOTH_PINS          -- 'Please fill in both PIN fields'
  deriving DecidableEq, Repr

/-! ## JavaScript primitives used by the source -/

/-- The characters matched by `\s` and stripped by `String.prototype.trim`:
ECMAScript WhiteSpace and LineTerminator. -/
def isJsSpace (c : Char) : Bool :=
  let n := c.toNat
  n == 0x09 || n == 0x0A || n == 0x0B || n == 0x0C || n == 0x0D || n == 0x20 ||
  n == 0xA0 || n == 0x1680 || (0x2000 ≤ n && n ≤ 0x200A) || n == 0x2028 ||
  n == 0x2029 || n == 0x202F || n == 0x205F || n == 0x3000 || n == 0xFEFF

/-- The `String.prototype.trim` operation, on the character list. -/
def jsTrim (cs : List Char) : List Char :=
  (cs.dropWhile isJsSpace).rdropWhile isJsSpace

/-- The UTF-16 code units of one character (a surrogate pair above the basic plane). -/
def utf16Units (c : Char) : List Nat :=
  if c.toNat < 0x10000 then [c.toNat]
  else [0xD800 + (c.toNat - 0x10000) / 0x400, 0xDC00 + (c.toNat - 0x10000) % 0x400]

/-- The code units `s.charCodeAt(0)`, `s.charCodeAt(1)`, ... of a JavaScript string. -/
def charCodes (cs : List Char) : List Nat :=
  match cs with
  | [] => []
  | c :: r => utf16Units c ++ charCodes r

/-- The `length` of a JavaScript string counts UTF-16 code units. -/
def jsLength (cs : List Char) : Nat := (charCodes cs).length

/-- A JavaScript number: `NaN`, the two infinities, or a finite value. -/
inductive JsNum where
  | nan
  | posInf
  | negInf
  | fin (q : ℚ)
  deriving DecidableEq

def isDecDigit (c : Char) : Bool := 48 ≤ c.toNat && c.toNat ≤ 57

def isHexDigit (c : Char) : Bool :=
  isDecDigit c || (97 ≤ c.toNat && c.toNat ≤ 102) || (65 ≤ c.toNat && c.toNat ≤ 70)

def isOctDigit (c : Char) : Bool := 48 ≤ c.toNat && c.toNat ≤ 55

def isBinDigit (c : Char) : Bool := c.toNat == 48 || c.toNat == 49

/-- The value of a digit character (decimal or hexadecimal). -/
def digitVal (c : Char) : Nat :=
  if c.toNat ≤ 57 then c.toNat - 48
  else if c.toNat ≤ 70 then c.toNat - 55
  else c.toNat - 87

/-- The value of a digit string in the given base. -/
def digitsVal (base : Nat) (cs : List Char) : Nat :=
  cs.foldl (fun acc c => acc * base + digitVal c) 0

/-- Multiplication by a power of ten with an integer exponent. -/
def scale10 (m : ℚ) (e : Int) : ℚ :=
  if 0 ≤ e then m * (10 : ℚ) ^ e.toNat else m / (10 : ℚ) ^ (-e).toNat

/-- ECMAScript `SignedInteger` of an `ExponentPart`: the text after `e` or `E`. -/
def parseExponent (cs : List Char) : Option Int :=
  match cs with
  | '+' :: ds => if ds ≠ [] ∧ ds.all isDecDigit then some (digitsVal 10 ds) else none
  | '-' :: ds => if ds ≠ [] ∧ ds.all isDecDigit then some (-(digitsVal 10 ds : Int)) else none
  | ds => if ds ≠ [] ∧ ds.all isDecDigit then some (digitsVal 10 ds) else none

/-- The part of a decimal literal after the integer digits `ip`: an optional `.` with
fraction digits, then an optional exponent part, then nothing else. -/
def parseAfterInt (ip : List Char) (rest : List Char) : JsNum :=
  let fp := match rest with
    | '.' :: r => r.takeWhile isDecDigit
    | _ => []
  let r2 := match rest with
    | '.' :: r => r.dropWhile isDecDigit
    | _ => rest
  if ip = [] ∧ fp = [] then JsNum.nan
  else
    let m : ℚ := (digitsVal 10 (ip ++ fp) : ℚ) / (10 : ℚ) ^ fp.length
    match r2 with
    | [] => JsNum.fin m
    | c :: r3 =>
      if c = 'e' ∨ c = 'E' then
        match parseExponent r3 with
        | some e => JsNum.fin (scale10 m e)
        | none => JsNum.nan
      else JsNum.nan

/-- ECMAScript `StrUnsignedDecimalLiteral`. -/
def parseUnsignedDecimal (cs : List Char) : JsNum :=
  if cs = ['I', 'n', 'f', 'i', 'n', 'i', 't', 'y'] then JsNum.posInf
  else parseAfterInt (cs.takeWhile isDecDigit) (cs.dropWhile isDecDigit)

def JsNum.neg : JsNum → JsNum
  | JsNum.nan => JsNum.nan
  | JsNum.posInf => JsNum.negInf
  | JsNum.negInf => JsNum.posInf
  | JsNum.fin q => JsNum.fin (-q)

/-- ECMAScript `NonDecimalIntegerLiteral` body: at least one digit of the base. -/
def parseRadix (base : Nat) (ok : Char → Bool) (ds : List Char) : JsNum :=
  if ds ≠ [] ∧ ds.all ok then JsNum.fin (digitsVal base ds) else JsNum.nan

/-- ECMAScript `StringToNumber` on text without surrounding white space. -/
def parseNumeric (cs : List Char) : JsNum :=
  match cs with
  | [] => JsNum.fin 0
  | '0' :: 'x' :: ds => parseRadix 16 isHexDigit ds
  | '0' :: 'X' :: ds => parseRadix 16 isHexDigit ds
  | '0' :: 'o' :: ds => parseRadix 8 isOctDigit ds
  | '0' :: 'O' :: ds => parseRadix 8 isOctDigit ds
  | '0' :: 'b' :: ds => parseRadix 2 isBinDigit ds
  | '0' :: 'B' :: ds => parseRadix 2 isBinDigit ds
  | '+' :: r => parseUnsignedDecimal r
  | '-' :: r => (parseUnsignedDecimal r).neg
  | _ => parseUnsignedDecimal cs

/-- The `Number(str)` conversion: strip white space, then read a numeric literal. -/
def jsNumber (cs : List Char) : JsNum := parseNumeric (jsTrim cs)

/-- The `Math.round` function: the nearest integer, ties towards `+∞`. -/
def mathRound (x : ℚ) : ℚ := (⌊x + 1 / 2⌋ : Int)

/-- The `str.split('.')[1]` expression: the text between the first and the second `.`,
or `none` (`undefined`) when there is no `.`. -/
def splitDotSecond (cs : List Char) : Option (List Char) :=
  match cs.dropWhile (fun c => c != '.') with
  | [] => none
  | _ :: r => some (r.takeWhile (fun c => c != '.'))

/-! ## src/utils.js -/

/-- The replacement `s.replace(/[\s-]/g, '')`. -/
def stripSpacesDashes (cs : List Char) : List Char :=
  cs.filter (fun c => !(isJsSpace c || c == '-'))

/-- Source: `normalizePhone` (utils.js). -/
def normalizePhone (input : String) : String :=
  if input = "" then ""
  else
    let s := jsTrim input.data
    let hasPlus := s.head? = some '+'
    let s := stripSpacesDashes s
    if ¬ hasPlus then String.mk (s.filter isDecDigit) else String.mk s

/-- A test `/^PRE[0-9]{lo,hi}$/`: the literal text `pre`, then between `lo` and `hi`
decimal digits, then the end of the text. -/
def matchDigitsAfter (pre : List Char) (lo hi : Nat) (s : List Char) : Bool :=
  s.take pre.length == pre &&
    (lo ≤ (s.drop pre.length).length && (s.drop pre.length).length ≤ hi &&
      (s.drop pre.length).all isDecDigit)

/-- Source: `validatePhone` (utils.js). -/
def validatePhone (input : String) : Bool :=
  let s := (normalizePhone input).data
  if matchDigitsAfter ['+', '9', '1'] 10 10 s then true
  else if matchDigitsAfter ['+', '2', '5', '4'] 9 9 s then true
  else if matchDigitsAfter ['0'] 9 10 s then true
  else if matchDigitsAfter [] 10 10 s then true
  else false

/-- The `ToInt32` conversion of ECMAScript, on integers. -/
def toInt32 (n : Int) : Int :=
  let m := n % 4294967296
  if m ≥ 2147483648 then m - 4294967296 else m

/-- The loop of `simpleHash`: `h = ((h << 5) + h) + s.charCodeAt(i)` from `h = 5381`. -/
def hashLoop (codes : List Nat) : Int :=
  codes.foldl (fun h c => (toInt32 (toInt32 h * 32) + h) + (c : Int)) 5381

/-- Source: `simpleHash` (utils.js): `'h' + (h >>> 0).toString(16)`. -/
def simpleHash (str : String) : String :=
  String.mk ('h' :: Nat.toDigits 16 (hashLoop (charCodes str.data) % 4294967296).toNat)

/-! ## src/app.js: state -/

structure User where
  id : String
  name : String
  mobile : String
  pinHash : String
  deriving DecidableEq, Repr

structure Account where
  name : String
  balance : ℚ
  accNumber : Option String
  deriving DecidableEq, Repr

inductive TxType where
  | Deposit
  | Withdraw
  | Transfer
  deriving DecidableEq, Repr

/-- One record of `state.ledger`; the field `balance` is the balance after the entry. -/
structure LedgerEntry where
  dt : String
  type : TxType
  ref : String
  amount : ℚ
  balance : ℚ
  deriving DecidableEq, Repr

/-- The object `state` of app.js. -/
structure State where
  user : Option User
  acc : Account
  ledger : List LedgerEntry
  searchQuery : String
  pendingAction : Bool
  deriving DecidableEq, Repr

/-- The keys of the local store that app.js uses; `none` is a missing (or unreadable)
entry, for which `store.get` returns its fallback. -/
structure Store where
  bb_user : Option User
  bb_acc : Option Account
  bb_ledger : Option (List LedgerEntry)
  bb_last_login : Option String
  deriving DecidableEq, Repr

/-- Source: `saveState` (app.js). -/
def saveState (st : State) (store : Store) : Store :=
  let store := if st.user.isSome then { store with bb_user := st.user } else store
  let store := { store with bb_acc := some st.acc }
  { store with bb_ledger := some st.ledger }

/-! ## src/app.js: validation -/

/-- The object returned by `validateAmount`, with the message it shows (if any). -/
structure AmountResult where
  valid : Bool
  amount : ℚ
  err : Option Err
  deriving DecidableEq, Repr

/-- Source: `validateAmount` (app.js); the balance is read from `state.acc.balance`. -/
def validateAmount (st : State) (value : String) (checkBalance : Bool) : AmountResult :=
  let strValue := jsTrim value.data
  -- Check for empty input
  if strValue = [] then ⟨false, 0, some Err.AMOUNT_REQUIRED⟩
  else
    match jsNumber strValue with
    -- Check for non-numeric input
    | JsNum.nan => ⟨false, 0, some Err.NOT_A_NUMBER⟩
    -- `-Infinity <= 0`
    | JsNum.negInf => ⟨false, 0, some Err.AMOUNT_NEGATIVE⟩
    -- `Infinity > AMOUNT_MAX`
    | JsNum.posInf => ⟨false, 0, some Err.AMOUNT_TOO_LARGE⟩
    | JsNum.fin amt =>
      -- Check for zero or negative
      if amt ≤ 0 then ⟨false, 0, some Err.AMOUNT_NEGATIVE⟩
      -- Check for excessively large amounts
      else if amt > VALIDATION.AMOUNT_MAX then ⟨false, 0, some Err.AMOUNT_TOO_LARGE⟩
      else
        -- Check decimal places
        let tooManyDecimals : Bool :=
          match splitDotSecond strValue with
          | none => false
          | some decimalPart =>
            decimalPart ≠ [] ∧ jsLength decimalPart > VALIDATION.AMOUNT_DECIMALS
        if tooManyDecimals then ⟨false, 0, some Err.AMOUNT_TOO_MANY_DECIMALS⟩
        else
          -- Round to 2 decimal places for consistency
          let roundedAmt := mathRound (amt * 100) / 100
          -- Check balance if needed
          if checkBalance ∧ roundedAmt > st.acc.balance then
            ⟨false, roundedAmt, some Err.INSUFFICIENT_BALANCE⟩
          else ⟨true, roundedAmt, none⟩

/-- The object returned by `validateMobileEnhanced`, with the message it shows (if any). -/
structure MobileResult where
  valid : Bool
  mobile : String
  err : Option Err
  deriving DecidableEq, Repr

/-- The characters that `.` of a regular expression does not match. -/
def isLineTerminator (c : Char) : Bool :=
  c.toNat == 0x0A || c.toNat == 0x0D || c.toNat == 0x2028 || c.toNat == 0x2029

/-- The test `/\+.*\+/`: a `+`, then any characters other than line terminators,
then a `+`. -/
def matchPlusAnyPlus (cs : List Char) : Bool :=
  match cs with
  | [] => false
  | c :: r =>
    (c == '+' && (r.takeWhile (fun d => !isLineTerminator d)).contains '+') ||
      matchPlusAnyPlus r

/-- The test `/^\++/`: one or more `+` at the start of the text. -/
def matchLeadingPluses (cs : List Char) : Bool :=
  match cs with
  | '+' :: _ => true
  | _ => false

/-- Source: `validateMobileEnhanced` (app.js). -/
def validateMobileEnhanced (input : String) : MobileResult :=
  let raw := jsTrim input.data
  -- Empty check
  if raw = [] then ⟨false, "", some Err.INVALID_MOBILE⟩
  -- Check for multiple + signs or + in wrong place
  else if matchLeadingPluses raw || matchPlusAnyPlus raw then
    ⟨false, "", some Err.INVALID_MOBILE_CHARS⟩
  else
    -- Check for invalid characters (allow digits, spaces, dashes, and leading +)
    let cleaned := stripSpacesDashes raw
    let charsOk : Bool :=
      match cleaned with
      | '+' :: ds => ds ≠ [] ∧ ds.all isDecDigit        -- /^\+[0-9]+$/
      | ds => ds ≠ [] ∧ ds.all isDecDigit               -- /^[0-9]+$/
    if !charsOk then ⟨false, "", some Err.INVALID_MOBILE_CHARS⟩
    else
      let mobile := normalizePhone (String.mk raw)
      if !validatePhone mobile then ⟨false, "", some Err.INVALID_MOBILE⟩
      else ⟨true, mobile, none⟩

/-! ## src/app.js: the balance-mutating actions

A click handler runs up to `await confirmLargeTransaction(...)`.  Below the threshold the
promise is already resolved and the rest of the handler runs before any other event; at or
above it a dialog stays open until it is answered.  After a confirmation the handler sets
`state.pendingAction` and starts a timer, whose callback performs the mutation. -/

/-- What a suspended handler (an open dialog or a running timer) has captured. -/
inductive Pending where
  | dep (amt : ℚ)
  | wd (amt : ℚ)
  | tf (amt : ℚ) (mobile : String)
  deriving DecidableEq, Repr

def Pending.amt : Pending → ℚ
  | Pending.dep a => a
  | Pending.wd a => a
  | Pending.tf a _ => a

/-- The whole program state: `state`, the local store, the open confirmation dialogs
and the timers that have not fired yet (both oldest first). -/
structure Sys where
  st : State
  store : Store
  dialogs : List Pending
  timers : List Pending
  deriving DecidableEq, Repr

/-- The `showError(id, msg)` calls of a handler, in order (toasts under the id `toast`). -/
abbrev Report := List (String × Err)

def shown (errorId : String) (e : Option Err) : Report :=
  match e with
  | some m => [(errorId, m)]
  | none => []

/-- Source: `confirmLargeTransaction` (app.js): below the threshold it resolves `true`
at once (`some true`); otherwise it opens a dialog and the answer comes later (`none`). -/
def confirmLargeTransaction (amount : ℚ) : Option Bool :=
  if amount < VALIDATION.LARGE_TRANSACTION_THRESHOLD then some true else none

/-- The handler code after a confirmed `await`: `state.pendingAction = true` and
`setTimeout(...)`. -/
def schedule (y : Sys) (t : Pending) : Sys :=
  { y with st := { y.st with pendingAction := true }, timers := y.timers ++ [t] }

/-- The handler code from `await confirmLargeTransaction(...)` on. -/
def awaitConfirm (y : Sys) (t : Pending) : Sys :=
  match confirmLargeTransaction t.amt with
  | some true => schedule y t
  | some false => y
  | none => { y with dialogs := y.dialogs ++ [t] }

/-- Source: the `depSubmit` click handler (app.js), up to the timer. -/
def depSubmit (y : Sys) (input : String) : Sys × Report :=
  if y.st.pendingAction then (y, [("toast", Err.PLEASE_WAIT)])
  else
    let r := validateAmount y.st input false
    if !r.valid then (y, shown "depAmountError" r.err)
    else (awaitConfirm y (Pending.dep r.amount), [])

/-- Source: the `wdSubmit` click handler (app.js), up to the timer. -/
def wdSubmit (y : Sys) (input : String) : Sys × Report :=
  if y.st.pendingAction then (y, [("toast", Err.PLEASE_WAIT)])
  else
    let r := validateAmount y.st input true
    if !r.valid then (y, shown "wdAmountError" r.err)
    else (awaitConfirm y (Pending.wd r.amount), [])

/-- Source: the `tfSubmit` click handler (app.js), up to the timer. -/
def tfSubmit (y : Sys) (mobileInput amountInput : String) : Sys × Report :=
  if y.st.pendingAction then (y, [("toast", Err.PLEASE_WAIT)])
  else
    -- Validate mobile
    let mobileResult := validateMobileEnhanced mobileInput
    let hasError1 : Bool := !mobileResult.valid
    let rep1 := shown "tfMobileError" mobileResult.err
    -- Check self-transfer
    let self : Bool :=
      mobileResult.valid &&
        (match y.st.user with
         | some u => decide (mobileResult.mobile = u.mobile)
         | none => false)
    let rep2 := if self then [("tfMobileError", Err.SELF_TRANSFER)] else []
    -- Validate amount
    let amountResult := validateAmount y.st amountInput true
    let hasError3 : Bool := !amountResult.valid
    let rep3 := shown "tfAmountError" amountResult.err
    if hasError1 || self || hasError3 then (y, rep1 ++ rep2 ++ rep3)
    else (awaitConfirm y (Pending.tf amountResult.amount mobileResult.mobile), [])

/-- Source: the timer callback of `depSubmit`. -/
def depComplete (st : State) (store : Store) (amt : ℚ) (now : String) : State × Store :=
  let st := { st with acc := { st.acc with balance := st.acc.balance + amt } }
  let st := { st with
    ledger := ⟨now, TxType.Deposit, "Cash Deposit", amt, st.acc.balance⟩ :: st.ledger }
  let store := saveState st store
  ({ st with pendingAction := false }, store)

/-- Source: the timer callback of `wdSubmit`. -/
def wdComplete (st : State) (store : Store) (amt : ℚ) (now : String) : State × Store :=
  let st := { st with acc := { st.acc with balance := st.acc.balance - amt } }
  let st := { st with
    ledger := ⟨now, TxType.Withdraw, "Cash Withdrawal", amt, st.acc.balance⟩ :: st.ledger }
  let store := saveState st store
  ({ st with pendingAction := false }, store)

/-- Source: the timer callback of `tfSubmit`. -/
def tfComplete (st : State) (store : Store) (amt : ℚ) (mobile : String) (now : String) :
    State × Store :=
  let st := { st with acc := { st.acc with balance := st.acc.balance - amt } }
  let st := { st with
    ledger := ⟨now, TxType.Transfer, "To: " ++ mobile, amt, st.acc.balance⟩ :: st.ledger }
  let store := saveState st store
  ({ st with pendingAction := false }, store)

/-- The timer callback of a suspended handler. -/
def complete (y : Sys) (t : Pending) (now : String) : Sys :=
  match t with
  | Pending.dep a =>
    { y with st := (depComplete y.st y.store a now).1,
             store := (depComplete y.st y.store a now).2 }
  | Pending.wd a =>
    { y with st := (wdComplete y.st y.store a now).1,
             store := (wdComplete y.st y.store a now).2 }
  | Pending.tf a m =>
    { y with st := (tfComplete y.st y.store a m now).1,
             store := (tfComplete y.st y.store a m now).2 }

/-- What can happen to the running program, as far as the three actions go. -/
inductive Event where
  /-- A click on `depSubmit` with the given text in `depAmount`. -/
  | depClick (amount : String)
  /-- A click on `wdSubmit` with the given text in `wdAmount`. -/
  | wdClick (amount : String)
  /-- A click on `tfSubmit` with the given texts in `tfMobile` and `tfAmount`. -/
  | tfClick (mobile amount : String)
  /-- The dialog number `i` is answered: "Yes, proceed" or a cancellation. -/
  | answer (i : Nat) (confirmed : Bool)
  /-- The timer number `i` fires at time `now`. -/
  | timer (i : Nat) (now : String)
  deriving DecidableEq, Repr

/-- One event. -/
def step (y : Sys) (e : Event) : Sys × Report :=
  match e with
  | Event.depClick a => depSubmit y a
  | Event.wdClick a => wdSubmit y a
  | Event.tfClick m a => tfSubmit y m a
  | Event.answer i confirmed =>
    match y.dialogs[i]? with
    | none => (y, [])
    | some t =>
      let y1 := { y with dialogs := y.dialogs.eraseIdx i }
      (if confirmed then schedule y1 t else y1, [])
  | Event.timer i now =>
    match y.timers[i]? with
    | none => (y, [])
    | some t => (complete { y with timers := y.timers.eraseIdx i } t now, [])

/-- A sequence of events. -/
def run (y : Sys) (es : List Event) : Sys :=
  es.foldl (fun z e => (step z e).1) y

/-- The state a signup leaves: balance 0, empty ledger, nothing in flight, and the account
and the ledger written to the store by `saveState`. -/
def IsFresh (y : Sys) : Prop :=
  y.st.acc.balance = 0 ∧ y.st.ledger = [] ∧ y.st.pendingAction = false ∧
    y.dialogs = [] ∧ y.timers = [] ∧
    y.store.bb_acc = some y.st.acc ∧ y.store.bb_ledger = some y.st.ledger

instance (y : Sys) : Decidable (IsFresh y) := by
  unfold IsFresh
  exact inferInstance

/-- The states the three actions can reach from a fresh signup. -/
inductive Reachable : Sys → Prop where
  | fresh (y : Sys) (h : IsFresh y) : Reachable y
  | next (y : Sys) (e : Event) (h : Reachable y) : Reachable (step y e).1

/-! ## src/app.js: login -/

/-- Source: the `login-form` submit handler (app.js).  `gen1` and `gen2` are the results
of the two calls of `generateAccountNumber()`, `now` is `nowISO()`. -/
def loginSubmit (y : Sys) (liMobile liPin : String) (gen1 gen2 now : String) :
    Sys × Report :=
  let mobile := normalizePhone (String.mk (jsTrim liMobile.data))
  let pin := String.mk (jsTrim liPin.data)
  match y.store.bb_user with
  | none => (y, [("li-mobile-error", Err.NO_ACCOUNT)])
  | some storedUser =>
    if storedUser.mobile ≠ mobile then (y, [("li-mobile-error", Err.MOBILE_NOT_REGISTERED)])
    else if storedUser.pinHash ≠ simpleHash pin then (y, [("li-pin-error", Err.INCORRECT_PIN)])
    else
      let acc := y.store.bb_acc.getD ⟨"Main Account", 0, some gen1⟩
      let st := { y.st with user := some storedUser, acc := acc,
                            ledger := y.store.bb_ledger.getD [] }
      -- Generate account number if missing (for existing users)
      let missing : Bool := st.acc.accNumber = none ∨ st.acc.accNumber = some ""
      let st := if missing then { st with acc := { st.acc with accNumber := some gen2 } } else st
      let store := if missing then saveState st y.store else y.store
      let store := { store with bb_last_login := some now }
      ({ y with st := st, store := store }, [])

/-! ## src/app.js: name validation, signup, storage, PIN change, credit score -/

/-- The test `VALIDATION.PIN_PATTERN`, `/^\d{4}$/`: exactly four decimal digits. -/
def VALIDATION.PIN_PATTERN (cs : List Char) : Bool :=
  cs.length == 4 && cs.all isDecDigit

/-- The object returned by `validateName`; `error` is the message (`null` on success). -/
structure NameResult where
  valid : Bool
  name : String
  error : Option Err
  deriving DecidableEq, Repr

/-- The characters of the test `/<|>|&|"|'/`, by code: `"` `&` the apostrophe `<` `>`. -/
def isDangerousChar (c : Char) : Bool :=
  c.toNat == 34 || c.toNat == 38 || c.toNat == 39 || c.toNat == 60 || c.toNat == 62

/-- Source: `validateName` (app.js). -/
def validateName (name : String) : NameResult :=
  let trimmed := jsTrim name.data
  if trimmed = [] then ⟨false, "", some Err.ENTER_NAME⟩
  else if jsLength trimmed < VALIDATION.NAME_MIN_LENGTH then
    ⟨false, String.mk trimmed, some Err.NAME_TOO_SHORT⟩
  else if jsLength trimmed > VALIDATION.NAME_MAX_LENGTH then
    ⟨false, String.mk trimmed, some Err.NAME_TOO_LONG⟩
  -- Check for potentially dangerous characters
  else if trimmed.any isDangerousChar then
    ⟨false, String.mk trimmed, some Err.INVALID_NAME⟩
  else ⟨true, String.mk trimmed, none⟩

/-- The text written for one character when `innerHTML` is read back after an assignment
to `textContent` (the escaping of the HTML serialisation of a text node). -/
def escapeChar (c : Char) : List Char :=
  if c.toNat = 38 then ['&', 'a', 'm', 'p', ';']
  else if c.toNat = 60 then ['&', 'l', 't', ';']
  else if c.toNat = 62 then ['&', 'g', 't', ';']
  else if c.toNat = 0xA0 then ['&', 'n', 'b', 's', 'p', ';']
  else [c]

/-- Source: `escapeHtml` (utils.js). -/
def escapeHtml (str : String) : String :=
  String.mk (str.data.flatMap escapeChar)

/-- Source: the `signup-form` submit handler (app.js).  `id` is the result of `uid('u')`,
`accNumber` that of `generateAccountNumber()`, `now` that of `nowISO()`. -/
def signupSubmit (y : Sys) (nameInput mobileInput pinInput : String)
    (id accNumber now : String) : Sys × Report :=
  let pin := String.mk (jsTrim pinInput.data)
  -- Validate name
  let nameResult := validateName nameInput
  -- Validate mobile
  let mobileResult := validateMobileEnhanced mobileInput
  -- Validate PIN
  let pinOk := VALIDATION.PIN_PATTERN pin.data
  let rep := shown "su-name-error" nameResult.error ++
    shown "su-mobile-error" mobileResult.err ++
    (if pinOk then [] else [("su-pin-error", Err.INVALID_PIN)])
  if !nameResult.valid || !mobileResult.valid || !pinOk then (y, rep)
  else
    -- Create user with XSS-safe name
    let st := { y.st with
      user := some ⟨id, escapeHtml nameResult.name, mobileResult.mobile, simpleHash pin⟩,
      acc := ⟨"Main Account", 0, some accNumber⟩,
      ledger := [] }
    let store := saveState st y.store
    let store := { store with bb_last_login := some now }
    ({ y with st := st, store := store }, rep)

/-- Source: the `changePinBtn` click handler (app.js), up to the timer: `true` when the
change of PIN is accepted. -/
def changePinSubmit (st : State) (currentPinInput newPinInput : String) : Bool × Report :=
  let currentPin := String.mk (jsTrim currentPinInput.data)
  let newPin := String.mk (jsTrim newPinInput.data)
  if currentPin = "" ∨ newPin = "" then (false, [("pinChangeError", Err.FILL_BOTH_PINS)])
  else
    match st.user with
    | none => (false, [])        -- `state.user.pinHash` throws
    | some u =>
      if simpleHash currentPin ≠ u.pinHash then (false, [("pinChangeError", Err.WRONG_PIN)])
      else if !VALIDATION.PIN_PATTERN newPin.data then
        (false, [("pinChangeError", Err.INVALID_PIN)])
      else (true, [])

/-- Source: the timer callback of the `changePinBtn` click handler. -/
def changePinComplete (st : State) (store : Store) (newPin : String) : State × Store :=
  let st := { st with user := st.user.map (fun u => { u with pinHash := simpleHash newPin }) }
  (st, saveState st store)

/-- Source: `updateCreditScore` (app.js), the value of `score` for a balance. -/
def creditScore (balance : ℚ) : Int :=
  if balance ≤ 0 then 300
  else if balance < 1000 then 350 + ⌊balance / 10⌋
  else if balance < 5000 then 450 + ⌊(balance - 1000) / 40⌋
  else if balance < 10000 then 550 + ⌊(balance - 5000) / 50⌋
  else if balance < 25000 then 650 + ⌊(balance - 10000) / 150⌋
  else if balance < 50000 then 750 + ⌊(balance - 25000) / 500⌋
  else min 850 (800 + ⌊(balance - 50000) / 2000⌋)

/-- Source: `updateCreditScore` (app.js): the score shown for `state.acc.balance`. -/
def updateCreditScore (st : State) : Int := creditScore st.acc.balance

/-- The ledger type of a suspended action. -/
def Pending.type : Pending → TxType
  | Pending.dep _ => TxType.Deposit
  | Pending.wd _ => TxType.Withdraw
  | Pending.tf _ _ => TxType.Transfer

/-! ## Example states -/

/-- A user who signed up with mobile `9876543210` and PIN `1234`. -/
def demoUser : User := ⟨"u_k3x9qa", "Asha", "9876543210", simpleHash "1234"⟩

/-- A session of `demoUser` with the given balance and ledger, nothing in flight. -/
def demoState (balance : ℚ) (ledger : List LedgerEntry) : State :=
  ⟨some demoUser, ⟨"Main Account", balance, some "4821-7733-1906"⟩, ledger, "", false⟩

/-- The program right after the signup of `demoUser`. -/
def demoFresh : Sys :=
  ⟨demoState 0 [], ⟨some demoUser, some (demoState 0 []).acc, some [], none⟩, [], []⟩

/-- The program after `demoUser` logged out: no session user, the user still persisted. -/
def demoAnon : Sys :=
  ⟨⟨none, ⟨"Main Account", 0, some "4821-7733-1906"⟩, [], "", false⟩,
   ⟨some demoUser, some (demoState 0 []).acc, some [], none⟩, [], []⟩

/-- The trace of the overdraft: a deposit of 15000, then two withdrawals of 12000 that are
both submitted while the confirmation dialog of the first is still open. -/
def overdraftTrace : List Event :=
  [Event.depClick "15000", Event.answer 0 true, Event.timer 0 "2024-05-01T10:00:00.000Z",
   Event.wdClick "12000", Event.wdClick "12000", Event.answer 0 true, Event.answer 0 true,
   Event.timer 0 "2024-05-01T10:01:00.000Z", Event.timer 0 "2024-05-01T10:01:01.000Z"]

/-- An entry records the balance `prev` changed by its amount, with the sign of its type. -/
def EntryConsistent (prev : ℚ) (e : LedgerEntry) : Prop :=
  e.balance = match e.type with
    | TxType.Deposit => prev + e.amount
    | TxType.Withdraw => prev - e.amount
    | TxType.Transfer => prev - e.amount

instance (prev : ℚ) (e : LedgerEntry) : Decidable (EntryConsistent prev e) := by
  unfold EntryConsistent
  exact inferInstance

/-- The balance recorded by the newest entry, or 0 for an empty ledger. -/
def headBalance (l : List LedgerEntry) : ℚ :=
  match l with
  | [] => 0
  | e :: _ => e.balance

/-- Every entry of the ledger (newest first) is consistent with the one before it. -/
def Chain (l : List LedgerEntry) : Prop :=
  match l with
  | [] => True
  | e :: r => EntryConsistent (headBalance r) e ∧ Chain r

instance Chain.decidable : (l : List LedgerEntry) → Decidable (Chain l)
  | [] => isTrue trivial
  | e :: r =>
    match (inferInstance : Decidable (EntryConsistent (headBalance r) e)), Chain.decidable r with
    | isTrue h1, isTrue h2 => isTrue ⟨h1, h2⟩
    | isFalse h1, _ => isFalse (fun h => h1 h.1)
    | _, isFalse h2 => isFalse (fun h => h2 h.2)

/-! ## Lemmas on the primitives -/

theorem not_of_dropWhile_eq_cons {p : Char → Bool} {cs r : List Char} {c : Char}
    (h : cs.dropWhile p = c :: r) : p c = false := by
  induction cs with
  | nil => simp at h
  | cons a t ih =>
    by_cases ha : p a = true
    · rw [List.dropWhile_cons_of_pos ha] at h
      exact ih h
    · rw [List.dropWhile_cons_of_neg ha] at h
      simp only [List.cons.injEq] at h
      rw [← h.1]
      simpa using ha

/-- Trimming twice is trimming once. -/
theorem jsTrim_jsTrim (cs : List Char) : jsTrim (jsTrim cs) = jsTrim cs := by
  unfold jsTrim
  have h1 : ((cs.dropWhile isJsSpace).rdropWhile isJsSpace).dropWhile isJsSpace =
      (cs.dropWhile isJsSpace).rdropWhile isJsSpace := by
    cases hr : (cs.dropWhile isJsSpace).rdropWhile isJsSpace with
    | nil => rfl
    | cons c r =>
      obtain ⟨t, ht⟩ := List.rdropWhile_prefix isJsSpace (l := cs.dropWhile isJsSpace)
      rw [hr] at ht
      have hc : isJsSpace c = false := not_of_dropWhile_eq_cons (r := r ++ t) (by rw [← ht]; rfl)
      rw [List.dropWhile_cons_of_neg (by simp [hc])]
  rw [h1, List.rdropWhile_idempotent]

/-- The conversion `Number` ignores surrounding white space. -/
theorem jsNumber_jsTrim (cs : List Char) : jsNumber (jsTrim cs) = jsNumber cs := by
  unfold jsNumber
  rw [jsTrim_jsTrim]

/-- Rounding leaves an integer unchanged. -/
theorem mathRound_intCast (n : Int) : mathRound (n : ℚ) = n := by
  unfold mathRound
  have : ⌊(n : ℚ) + 1 / 2⌋ = n := by
    rw [Int.floor_eq_iff]
    constructor
    · linarith
    · linarith
  rw [this]

/-! ## Lemmas on `validateAmount` -/

theorem mathRound_of_eq_int (x : ℚ) (n : Int) (h : x = n) : mathRound x = n := by
  rw [h, mathRound_intCast]

/-- The result of `validateAmount` on a text without `.` that reads as a positive number
within the limit. -/
theorem validateAmount_of_number (st : State) (input : String) (chk : Bool) (q : ℚ)
    (hne : jsTrim input.data ≠ [])
    (hnum : jsNumber (jsTrim input.data) = JsNum.fin q)
    (hpos : 0 < q) (hmax : q ≤ VALIDATION.AMOUNT_MAX)
    (hsplit : splitDotSecond (jsTrim input.data) = none) :
    validateAmount st input chk =
      if chk = true ∧ mathRound (q * 100) / 100 > st.acc.balance then
        ⟨false, mathRound (q * 100) / 100, some Err.INSUFFICIENT_BALANCE⟩
      else ⟨true, mathRound (q * 100) / 100, none⟩ := by
  unfold validateAmount
  simp only [hne, hnum, hsplit, if_false, not_le.mpr hpos, not_lt.mpr hmax]
  simp

theorem validateAmount_15000 (st : State) :
    validateAmount st "15000" false = ⟨true, 15000, none⟩ := by
  rw [validateAmount_of_number st "15000" false 15000]
  · rw [mathRound_of_eq_int _ 1500000 (by norm_num)]
    norm_num
  · simp [jsTrim, isJsSpace, List.rdropWhile]
  · simp [jsNumber, jsTrim, parseNumeric, parseUnsignedDecimal, parseAfterInt, parseExponent,
      isDecDigit, isJsSpace, digitsVal, digitVal, scale10, List.rdropWhile]
  · norm_num
  · norm_num [VALIDATION.AMOUNT_MAX]
  · simp [splitDotSecond, jsTrim, isJsSpace, List.rdropWhile]

theorem validateAmount_12000 (st : State) (h : 12000 ≤ st.acc.balance) :
    validateAmount st "12000" true = ⟨true, 12000, none⟩ := by
  rw [validateAmount_of_number st "12000" true 12000]
  · rw [mathRound_of_eq_int _ 1200000 (by norm_num)]
    have h3 : ((1200000 : Int) : ℚ) / 100 = 12000 := by norm_num
    rw [h3, if_neg (fun h2 => absurd h (not_le.mpr h2.2))]
  · simp [jsTrim, isJsSpace, List.rdropWhile]
  · simp [jsNumber, jsTrim, parseNumeric, parseUnsignedDecimal, parseAfterInt, parseExponent,
      isDecDigit, isJsSpace, digitsVal, digitVal, scale10, List.rdropWhile]
  · norm_num
  · norm_num [VALIDATION.AMOUNT_MAX]
  · simp [splitDotSecond, jsTrim, isJsSpace, List.rdropWhile]

theorem depSubmit_large (y : Sys) (input : String) (a : ℚ)
    (hflag : y.st.pendingAction = false)
    (hv : validateAmount y.st input false = ⟨true, a, none⟩)
    (hl : VALIDATION.LARGE_TRANSACTION_THRESHOLD ≤ a) :
    (depSubmit y input).1 = { y with dialogs := y.dialogs ++ [Pending.dep a] } := by
  simp [depSubmit, hflag, hv, awaitConfirm, confirmLargeTransaction, Pending.amt, not_lt.mpr hl]

theorem wdSubmit_large (y : Sys) (input : String) (a : ℚ)
    (hflag : y.st.pendingAction = false)
    (hv : validateAmount y.st input true = ⟨true, a, none⟩)
    (hl : VALIDATION.LARGE_TRANSACTION_THRESHOLD ≤ a) :
    (wdSubmit y input).1 = { y with dialogs := y.dialogs ++ [Pending.wd a] } := by
  simp [wdSubmit, hflag, hv, awaitConfirm, confirmLargeTransaction, Pending.amt, not_lt.mpr hl]

theorem run_cons (y : Sys) (e : Event) (es : List Event) :
    run y (e :: es) = run (step y e).1 es := rfl

theorem reachable_run (y : Sys) (es : List Event) (h : Reachable y) : Reachable (run y es) := by
  induction es generalizing y with
  | nil => exact h
  | cons e es ih =>
    rw [run_cons]
    exact ih _ (Reachable.next y e h)

theorem isFresh_demoFresh : IsFresh demoFresh := ⟨rfl, rfl, rfl, rfl, rfl, rfl, rfl⟩

/-! ## C1 -/

/-- C3 (the code breaks it): from the fresh signup `demoFresh`, a confirmed deposit of 15000
followed by two withdrawals of 12000, each validated against the balance 15000 while the
confirmation dialog of the other is open and both then confirmed, reaches a state whose
balance is -9000. -/
theorem overdraft_reachable :
    Reachable (run demoFresh overdraftTrace) ∧
    (run demoFresh overdraftTrace).st.acc.balance = -9000 := by
  refine ⟨reachable_run _ _ (Reachable.fresh _ isFresh_demoFresh), ?_⟩
  have hthr : VALIDATION.LARGE_TRANSACTION_THRESHOLD ≤ (15000 : ℚ) := by
    norm_num [VALIDATION.LARGE_TRANSACTION_THRESHOLD]
  have hthr2 : VALIDATION.LARGE_TRANSACTION_THRESHOLD ≤ (12000 : ℚ) := by
    norm_num [VALIDATION.LARGE_TRANSACTION_THRESHOLD]
  unfold overdraftTrace
  rw [run_cons]
  simp only [step]
  rw [depSubmit_large demoFresh "15000" 15000 rfl (validateAmount_15000 _) hthr]
  rw [run_cons, run_cons]
  simp only [step, demoFresh, List.nil_append, List.getElem?_cons_zero, List.eraseIdx_cons_zero,
    if_true, schedule, complete, depComplete, saveState, demoState, Option.isSome_some]
  rw [run_cons]
  simp only [step]
  rw [wdSubmit_large _ "12000" 12000 rfl (validateAmount_12000 _ (by norm_num)) hthr2]
  rw [run_cons]
  simp only [step]
  rw [wdSubmit_large _ "12000" 12000 rfl (validateAmount_12000 _ (by norm_num)) hthr2]
  simp only [run, List.foldl, step, List.nil_append, List.cons_append, List.getElem?_cons_zero,
    List.eraseIdx_cons_zero, if_true, schedule, complete, depComplete, wdComplete, saveState,
    demoState, Option.isSome_some]
  norm_num

/-! ## C4 -/

/-- C7 (the code breaks it): the text `1e-3` denotes the positive number 0.001, has no `.`
and so passes the check of the decimal places; `validateAmount` accepts it, and the amount it
returns is the rounded value 0, which is not strictly positive. -/
theorem validateAmount_accepts_zero (st : State) :
    jsNumber "1e-3".data = JsNum.fin (1 / 1000) ∧
    validateAmount st "1e-3" false = ⟨true, 0, none⟩ := by
  have hnum : jsNumber (jsTrim "1e-3".data) = JsNum.fin (1 / 1000) := by
    simp [jsNumber, jsTrim, parseNumeric, parseUnsignedDecimal, parseAfterInt, parseExponent,
      isDecDigit, isJsSpace, digitsVal, digitVal, scale10, List.rdropWhile]
    norm_num
  have hround : mathRound ((1 / 1000 : ℚ) * 100) / 100 = 0 := by
    have : ⌊(1 / 1000 : ℚ) * 100 + 1 / 2⌋ = 0 := by
      rw [Int.floor_eq_iff]; constructor <;> norm_num
    unfold mathRound
    rw [this]
    norm_num
  refine ⟨by rw [← jsNumber_jsTrim]; exact hnum, ?_⟩
  rw [validateAmount_of_number st "1e-3" false (1 / 1000) ?_ hnum (by norm_num)
    (by norm_num [VALIDATION.AMOUNT_MAX]) ?_, hround]
  · simp
  · simp [jsTrim, isJsSpace, List.rdropWhile]
  · simp [splitDotSecond, jsTrim, isJsSpace, List.rdropWhile]

/-! ## C8 -/

/-- C8 (the code breaks it): `+91 98765 43210` normalizes to `+919876543210`, which
`validatePhone` accepts, but `validateMobileEnhanced` rejects it with INVALID_MOBILE_CHARS:
its test `/^\++/` matches every text that starts with `+`. -/
theorem plus_prefixed_mobile_rejected :
    normalizePhone "+91 98765 43210" = "+919876543210" ∧
    validatePhone "+91 98765 43210" = true ∧
    validateMobileEnhanced "+91 98765 43210" = ⟨false, "", some Err.INVALID_MOBILE_CHARS⟩ ∧
    (∀ input : String, (jsTrim input.data).head? = some '+' →
      validateMobileEnhanced input = ⟨false, "", some Err.INVALID_MOBILE_CHARS⟩) := by
  refine ⟨by decide, by decide, by decide, ?_⟩
  intro input h
  unfold validateMobileEnhanced
  cases hr : jsTrim input.data with
  | nil => rw [hr] at h; simp at h
  | cons c r =>
    rw [hr] at h
    simp only [List.head?_cons, Option.some.injEq] at h
    subst h
    simp [matchLeadingPluses]

/-! ## C9 -/

/-- C9 as stated fails: `demoUser` registered the PIN `1234`; the different text `122U` has
the same `simpleHash`, so a login with it succeeds and sets the session user. -/
theorem login_accepts_colliding_pin :
    "122U" ≠ "1234" ∧ demoAnon.store.bb_user = some demoUser ∧
    demoUser.pinHash = simpleHash "1234" ∧
    normalizePhone (String.mk (jsTrim "9876543210".data)) = demoUser.mobile ∧
    demoAnon.st.user = none ∧
    (loginSubmit demoAnon "9876543210" "122U" "5150-2367-9012" "7341-1188-4520"
      "2024-05-02T08:00:00.000Z").1.st.user = some demoUser := by
  decide

/-- C9 (amended): when the mobile of a login attempt normalizes to the stored mobile of the
persisted user and the `simpleHash` of its trimmed PIN differs from the stored `pinHash`,
login fails with the message 'Incorrect PIN.' and the session user, the account, the ledger
and the store are unchanged. -/
theorem login_wrong_hash_rejected (y : Sys) (u : User) (liMobile liPin gen1 gen2 now : String)
    (hu : y.store.bb_user = some u)
    (hm : normalizePhone (String.mk (jsTrim liMobile.data)) = u.mobile)
    (hp : simpleHash (String.mk (jsTrim liPin.data)) ≠ u.pinHash) :
    loginSubmit y liMobile liPin gen1 gen2 now = (y, [("li-pin-error", Err.INCORRECT_PIN)]) := by
  unfold loginSubmit
  simp only [hu]
  rw [if_neg (by simp [hm]), if_pos (fun h => hp h.symm)]

/-- C9 (amended), for a login of `demoUser` with the PIN `4321`. -/
theorem login_wrong_hash_rejected_witness :
    simpleHash (String.mk (jsTrim "4321".data)) ≠ demoUser.pinHash ∧
    loginSubmit demoAnon "98765 43210" "4321" "5150-2367-9012" "7341-1188-4520"
      "2024-05-02T08:00:00.000Z" = (demoAnon, [("li-pin-error", Err.INCORRECT_PIN)]) :=
  ⟨by decide, login_wrong_hash_rejected demoAnon demoUser "98765 43210" "4321" _ _ _ rfl
    (by decide) (by decide)⟩

/-! ## C10 -/

/-- C10: in a session with no action in flight, a Transfer submission whose destination
validates to the mobile of the current user is rejected with SELF_TRANSFER whatever the
amount text is, and the program state (balance, ledger, in-flight flag) is unchanged. -/
theorem self_transfer_rejected (y : Sys) (u : User) (mobileInput amountInput : String)
    (hu : y.st.user = some u) (hflag : y.st.pendingAction = false)
    (hv : (validateMobileEnhanced mobileInput).valid = true)
    (hm : (validateMobileEnhanced mobileInput).mobile = u.mobile) :
    (tfSubmit y mobileInput amountInput).1 = y ∧
    ("tfMobileError", Err.SELF_TRANSFER) ∈ (tfSubmit y mobileInput amountInput).2 := by
  unfold tfSubmit
  simp [hu, hflag, hv, hm]

/-- C10, for `demoUser` and the destination `98765 43210`, with an amount that is not a
number. -/
theorem self_transfer_rejected_witness :
    (validateMobileEnhanced "98765 43210").mobile = demoUser.mobile ∧
    (tfSubmit demoFresh "98765 43210" "abc").1 = demoFresh ∧
    ("tfMobileError", Err.SELF_TRANSFER) ∈ (tfSubmit demoFresh "98765 43210" "abc").2 :=
  ⟨by decide, self_transfer_rejected demoFresh demoUser "98765 43210" "abc" rfl rfl
    (by decide) (by decide)⟩

/-! ## C11 -/

/-- C14: a signup whose name, mobile and (trimmed) PIN all pass validation succeeds whatever
was in memory and in the store before: the account has balance 0, the ledger is empty, the
user has the validated mobile, which is the normalized input, and the hash of the PIN, and
the store holds exactly the user, the account and the ledger of the session; and a signup
with an input that fails validation leaves the program state and the store as they were. -/
theorem signup_replaces_state (y : Sys) (nameInput mobileInput pinInput : String)
    (id accNumber now : String)
    (hn : (validateName nameInput).valid = true)
    (hm : (validateMobileEnhanced mobileInput).valid = true)
    (hp : VALIDATION.PIN_PATTERN (jsTrim pinInput.data) = true) :
    (∃ u, (signupSubmit y nameInput mobileInput pinInput id accNumber now).1.st.user = some u ∧
      u.mobile = (validateMobileEnhanced mobileInput).mobile ∧
      u.mobile = normalizePhone (String.mk (jsTrim mobileInput.data)) ∧
      u.pinHash = simpleHash (String.mk (jsTrim pinInput.data))) ∧
    (signupSubmit y nameInput mobileInput pinInput id accNumber now).1.st.acc.balance = 0 ∧
    (signupSubmit y nameInput mobileInput pinInput id accNumber now).1.st.ledger = [] ∧
    (signupSubmit y nameInput mobileInput pinInput id accNumber now).1.store.bb_user =
      (signupSubmit y nameInput mobileInput pinInput id accNumber now).1.st.user ∧
    (signupSubmit y nameInput mobileInput pinInput id accNumber now).1.store.bb_acc =
      some (signupSubmit y nameInput mobileInput pinInput id accNumber now).1.st.acc ∧
    (signupSubmit y nameInput mobileInput pinInput id accNumber now).1.store.bb_ledger =
      some (signupSubmit y nameInput mobileInput pinInput id accNumber now).1.st.ledger ∧
    (∀ n m p : String,
      ((validateName n).valid = false ∨ (validateMobileEnhanced m).valid = false ∨
        VALIDATION.PIN_PATTERN (jsTrim p.data) = false) →
      (signupSubmit y n m p id accNumber now).1 = y) := by
  have hmob : (validateMobileEnhanced mobileInput).mobile =
      normalizePhone (String.mk (jsTrim mobileInput.data)) := by
    unfold validateMobileEnhanced at hm ⊢
    simp only [] at hm ⊢
    split_ifs at hm ⊢
    rfl
  have hs : signupSubmit y nameInput mobileInput pinInput id accNumber now =
      (⟨{ y.st with
            user := some ⟨id, escapeHtml (validateName nameInput).name,
              (validateMobileEnhanced mobileInput).mobile,
              simpleHash (String.mk (jsTrim pinInput.data))⟩,
            acc := ⟨"Main Account", 0, some accNumber⟩,
            ledger := [] },
          { bb_user := some ⟨id, escapeHtml (validateName nameInput).name,
              (validateMobileEnhanced mobileInput).mobile,
              simpleHash (String.mk (jsTrim pinInput.data))⟩,
            bb_acc := some ⟨"Main Account", 0, some accNumber⟩,
            bb_ledger := some [],
            bb_last_login := some now },
          y.dialogs, y.timers⟩,
        shown "su-name-error" (validateName nameInput).error ++
          shown "su-mobile-error" (validateMobileEnhanced mobileInput).err ++ []) := by
    unfold signupSubmit
    simp [hn, hm, hp, saveState]
  rw [hs]
  refine ⟨⟨_, rfl, rfl, hmob, rfl⟩, rfl, rfl, rfl, rfl, rfl, ?_⟩
  intro n m p hbad
  unfold signupSubmit
  rcases hbad with hb | hb | hb <;> simp [hb]

/-- C14, for the signup of a second user over the data of `demoUser`. -/
theorem signup_replaces_state_witness :
    (validateName "Ravi").valid = true ∧
    (validateMobileEnhanced "91234 56780").valid = true ∧
    VALIDATION.PIN_PATTERN (jsTrim " 4321 ".data) = true ∧
    (signupSubmit demoAnon "Ravi" "91234 56780" " 4321 " "u_ab12cd" "1000-2000-3000"
      "2024-05-03T08:00:00.000Z").1.st.ledger = [] ∧
    (signupSubmit demoAnon "Ravi" "+91 91234 56780" " 4321 " "u_ab12cd" "1000-2000-3000"
      "2024-05-03T08:00:00.000Z").1 = demoAnon := by
  have h := signup_replaces_state demoAnon "Ravi" "91234 56780" " 4321 " "u_ab12cd"
    "1000-2000-3000" "2024-05-03T08:00:00.000Z" (by decide) (by decide) (by decide)
  exact ⟨by decide, by decide, by decide, h.2.2.1,
    h.2.2.2.2.2.2 "Ravi" "+91 91234 56780" " 4321 " (Or.inr (Or.inl (by decide)))⟩

/-! ## C15 -/

theorem isDangerousChar_iff (c : Char) :
    isDangerousChar c = true ↔
      (c = '<' ∨ c = '>' ∨ c = '&' ∨ c = Char.ofNat 34 ∨ c = Char.ofNat 39) := by
  have key : ∀ n : Nat, c.toNat = n → c = Char.ofNat n := by
    intro n hn
    rw [← hn, Char.ofNat_toNat]
  constructor
  · intro h
    simp only [isDangerousChar, Bool.or_eq_true, beq_iff_eq] at h
    rcases h with (((h | h) | h) | h) | h
    · exact Or.inr (Or.inr (Or.inr (Or.inl (key _ h))))
    · exact Or.inr (Or.inr (Or.inl (key _ h)))
    · exact Or.inr (Or.inr (Or.inr (Or.inr (key _ h))))
    · exact Or.inl (key _ h)
    · exact Or.inr (Or.inl (key _ h))
  · intro h
    rcases h with h | h | h | h | h <;> subst h <;> decide

theorem jsTrim_eq_nil_of_all_space (cs : List Char) (h : ∀ c ∈ cs, isJsSpace c = true) :
    jsTrim cs = [] := by
  unfold jsTrim
  rw [List.dropWhile_eq_nil_iff.mpr h]
  rfl

/-- C15: `validateName` accepts an input exactly when its trimmed text has a length (in
UTF-16 code units, as `length` counts) between 2 and 50 inclusive and contains none of the
characters `<`, `>`, `&`, the double quote and the apostrophe; on success the returned name
is the trimmed text; and an empty or whitespace-only input is rejected with the name `''`. -/
theorem validateName_spec (input : String) :
    ((validateName input).valid = true ↔
      (2 ≤ jsLength (jsTrim input.data) ∧ jsLength (jsTrim input.data) ≤ 50 ∧
        ∀ c ∈ jsTrim input.data,
          c ≠ '<' ∧ c ≠ '>' ∧ c ≠ '&' ∧ c ≠ Char.ofNat 34 ∧ c ≠ Char.ofNat 39)) ∧
    ((validateName input).valid = true →
      (validateName input).name = String.mk (jsTrim input.data)) ∧
    ((∀ c ∈ input.data, isJsSpace c = true) →
      validateName input = ⟨false, "", some Err.ENTER_NAME⟩) := by
  have hdang : (jsTrim input.data).any isDangerousChar = true ↔
      ¬ ∀ c ∈ jsTrim input.data,
          c ≠ '<' ∧ c ≠ '>' ∧ c ≠ '&' ∧ c ≠ Char.ofNat 34 ∧ c ≠ Char.ofNat 39 := by
    rw [List.any_eq_true]
    constructor
    · rintro ⟨c, hc, hd⟩ hall
      have := hall c hc
      rcases (isDangerousChar_iff c).mp hd with h | h | h | h | h
      · exact this.1 h
      · exact this.2.1 h
      · exact this.2.2.1 h
      · exact this.2.2.2.1 h
      · exact this.2.2.2.2 h
    · intro hall
      by_contra hne
      apply hall
      intro c hc
      have hnd : ¬ isDangerousChar c = true := fun hd => hne ⟨c, hc, hd⟩
      rw [isDangerousChar_iff] at hnd
      exact ⟨fun h => hnd (Or.inl h), fun h => hnd (Or.inr (Or.inl h)),
        fun h => hnd (Or.inr (Or.inr (Or.inl h))),
        fun h => hnd (Or.inr (Or.inr (Or.inr (Or.inl h)))),
        fun h => hnd (Or.inr (Or.inr (Or.inr (Or.inr h))))⟩
  refine ⟨?_, ?_, ?_⟩
  · unfold validateName
    simp only [VALIDATION.NAME_MIN_LENGTH, VALIDATION.NAME_MAX_LENGTH]
    by_cases h0 : jsTrim input.data = []
    · simp [h0, jsLength, charCodes]
    · by_cases h1 : jsLength (jsTrim input.data) < 2
      · simp only [h0, h1, if_true, if_false]
        constructor
        · intro h; exact absurd h (by simp)
        · intro h; omega
      · by_cases h2 : jsLength (jsTrim input.data) > 50
        · simp only [h0, h1, h2, if_true, if_false]
          constructor
          · intro h; exact absurd h (by simp)
          · intro h; omega
        · by_cases h3 : (jsTrim input.data).any isDangerousChar = true
          · simp only [h0, h1, h2, h3, if_true, if_false]
            constructor
            · intro h; exact absurd h (by simp)
            · intro h; exact absurd h.2.2 (hdang.mp h3)
          · simp only [h0, h1, h2, h3, if_false]
            constructor
            · intro _
              refine ⟨by omega, by omega, ?_⟩
              by_contra hc
              exact h3 (hdang.mpr hc)
            · intro _; rfl
  · intro hv
    unfold validateName at hv ⊢
    simp only [] at hv ⊢
    split_ifs at hv ⊢
    rfl
  · intro h
    unfold validateName
    simp [jsTrim_eq_nil_of_all_space _ h]

/-! ## C16 -/

theorem floor_div_range (x d : ℚ) (n : Int) (hd : 0 < d) (h0 : 0 ≤ x) (h1 : x < d * n) :
    0 ≤ ⌊x / d⌋ ∧ ⌊x / d⌋ ≤ n - 1 := by
  constructor
  · exact Int.floor_nonneg.mpr (div_nonneg h0 hd.le)
  · have : ⌊x / d⌋ < n := by
      rw [Int.floor_lt, div_lt_iff₀ hd]
      linarith
    omega

theorem floor_div_mono (x y d : ℚ) (hd : 0 < d) (h : x ≤ y) : ⌊x / d⌋ ≤ ⌊y / d⌋ :=
  Int.floor_mono (div_le_div_of_nonneg_right h hd.le)

theorem creditScore_b0 (b : ℚ) (h : b ≤ 0) : creditScore b = 300 := by
  unfold creditScore
  rw [if_pos h]

theorem creditScore_b1 (b : ℚ) (h0 : 0 < b) (h1 : b < 1000) :
    creditScore b = 350 + ⌊b / 10⌋ := by
  unfold creditScore
  rw [if_neg (not_le.mpr h0), if_pos h1]

theorem creditScore_b2 (b : ℚ) (h0 : 1000 ≤ b) (h1 : b < 5000) :
    creditScore b = 450 + ⌊(b - 1000) / 40⌋ := by
  unfold creditScore
  rw [if_neg (by linarith), if_neg (by linarith), if_pos h1]

theorem creditScore_b3 (b : ℚ) (h0 : 5000 ≤ b) (h1 : b < 10000) :
    creditScore b = 550 + ⌊(b - 5000) / 50⌋ := by
  unfold creditScore
  rw [if_neg (by linarith), if_neg (by linarith), if_neg (by linarith), if_pos h1]

theorem creditScore_b4 (b : ℚ) (h0 : 10000 ≤ b) (h1 : b < 25000) :
    creditScore b = 650 + ⌊(b - 10000) / 150⌋ := by
  unfold creditScore
  rw [if_neg (by linarith), if_neg (by linarith), if_neg (by linarith), if_neg (by linarith),
    if_pos h1]

theorem creditScore_b5 (b : ℚ) (h0 : 25000 ≤ b) (h1 : b < 50000) :
    creditScore b = 750 + ⌊(b - 25000) / 500⌋ := by
  unfold creditScore
  rw [if_neg (by linarith), if_neg (by linarith), if_neg (by linarith), if_neg (by linarith),
    if_neg (by linarith), if_pos h1]

theorem creditScore_b6 (b : ℚ) (h0 : 50000 ≤ b) :
    creditScore b = min 850 (800 + ⌊(b - 50000) / 2000⌋) := by
  unfold creditScore
  rw [if_neg (by linarith), if_neg (by linarith), if_neg (by linarith), if_neg (by linarith),
    if_neg (by linarith), if_neg (by linarith)]

theorem creditScore_ge_800 (b : ℚ) (h : 50000 ≤ b) : 800 ≤ creditScore b := by
  rw [creditScore_b6 b h]
  have : 0 ≤ ⌊(b - 50000) / 2000⌋ := Int.floor_nonneg.mpr (div_nonneg (by linarith) (by norm_num))
  exact le_min (by norm_num) (by omega)

theorem creditScore_ge_750 (b : ℚ) (h : 25000 ≤ b) : 750 ≤ creditScore b := by
  rcases lt_or_le b 50000 with h1 | h1
  · rw [creditScore_b5 b h h1]
    have := floor_div_range (b - 25000) 500 50 (by norm_num) (by linarith) (by push_cast; linarith)
    omega
  · have := creditScore_ge_800 b h1
    omega

theorem creditScore_ge_650 (b : ℚ) (h : 10000 ≤ b) : 650 ≤ creditScore b := by
  rcases lt_or_le b 25000 with h1 | h1
  · rw [creditScore_b4 b h h1]
    have := floor_div_range (b - 10000) 150 100 (by norm_num) (by linarith) (by push_cast; linarith)
    omega
  · have := creditScore_ge_750 b h1
    omega

theorem creditScore_ge_550 (b : ℚ) (h : 5000 ≤ b) : 550 ≤ creditScore b := by
  rcases lt_or_le b 10000 with h1 | h1
  · rw [creditScore_b3 b h h1]
    have := floor_div_range (b - 5000) 50 100 (by norm_num) (by linarith) (by push_cast; linarith)
    omega
  · have := creditScore_ge_650 b h1
    omega

theorem creditScore_ge_450 (b : ℚ) (h : 1000 ≤ b) : 450 ≤ creditScore b := by
  rcases lt_or_le b 5000 with h1 | h1
  · rw [creditScore_b2 b h h1]
    have := floor_div_range (b - 1000) 40 100 (by norm_num) (by linarith) (by push_cast; linarith)
    omega
  · have := creditScore_ge_550 b h1
    omega

theorem creditScore_ge_350 (b : ℚ) (h : 0 < b) : 350 ≤ creditScore b := by
  rcases lt_or_le b 1000 with h1 | h1
  · rw [creditScore_b1 b h h1]
    have := floor_div_range b 10 100 (by norm_num) (by linarith) (by push_cast; linarith)
    omega
  · have := creditScore_ge_450 b h1
    omega

theorem creditScore_lt_1000 (b : ℚ) (h : b < 1000) : creditScore b ≤ 449 := by
  rcases le_or_lt b 0 with h0 | h0
  · rw [creditScore_b0 b h0]; norm_num
  · rw [creditScore_b1 b h0 h]
    have := floor_div_range b 10 100 (by norm_num) (by linarith) (by push_cast; linarith)
    omega

theorem creditScore_lt_5000 (b : ℚ) (h : b < 5000) : creditScore b ≤ 549 := by
  rcases lt_or_le b 1000 with h0 | h0
  · have := creditScore_lt_1000 b h0
    omega
  · rw [creditScore_b2 b h0 h]
    have := floor_div_range (b - 1000) 40 100 (by norm_num) (by linarith) (by push_cast; linarith)
    omega

theorem creditScore_lt_10000 (b : ℚ) (h : b < 10000) : creditScore b ≤ 649 := by
  rcases lt_or_le b 5000 with h0 | h0
  · have := creditScore_lt_5000 b h0
    omega
  · rw [creditScore_b3 b h0 h]
    have := floor_div_range (b - 5000) 50 100 (by norm_num) (by linarith) (by push_cast; linarith)
    omega

theorem creditScore_lt_25000 (b : ℚ) (h : b < 25000) : creditScore b ≤ 749 := by
  rcases lt_or_le b 10000 with h0 | h0
  · have := creditScore_lt_10000 b h0
    omega
  · rw [creditScore_b4 b h0 h]
    have := floor_div_range (b - 10000) 150 100 (by norm_num) (by linarith) (by push_cast; linarith)
    omega

theorem creditScore_lt_50000 (b : ℚ) (h : b < 50000) : creditScore b ≤ 799 := by
  rcases lt_or_le b 25000 with h0 | h0
  · have := creditScore_lt_25000 b h0
    omega
  · rw [creditScore_b5 b h0 h]
    have := floor_div_range (b - 25000) 500 50 (by norm_num) (by linarith) (by push_cast; linarith)
    omega

theorem creditScore_le_of_le (b1 b2 : ℚ) (h : b1 ≤ b2) : creditScore b1 ≤ creditScore b2 := by
  rcases le_or_lt b1 0 with h0 | h0
  · rw [creditScore_b0 b1 h0]
    rcases le_or_lt b2 0 with k | k
    · rw [creditScore_b0 b2 k]
    · have := creditScore_ge_350 b2 k
      omega
  rcases lt_or_le b1 1000 with h1 | h1
  · rcases lt_or_le b2 1000 with k | k
    · rw [creditScore_b1 b1 h0 h1, creditScore_b1 b2 (by linarith) k]
      have := floor_div_mono b1 b2 10 (by norm_num) h
      omega
    · have := creditScore_lt_1000 b1 h1
      have := creditScore_ge_450 b2 k
      omega
  rcases lt_or_le b1 5000 with h2 | h2
  · rcases lt_or_le b2 5000 with k | k
    · rw [creditScore_b2 b1 h1 h2, creditScore_b2 b2 (by linarith) k]
      have := floor_div_mono (b1 - 1000) (b2 - 1000) 40 (by norm_num) (by linarith)
      omega
    · have := creditScore_lt_5000 b1 h2
      have := creditScore_ge_550 b2 k
      omega
  rcases lt_or_le b1 10000 with h3 | h3
  · rcases lt_or_le b2 10000 with k | k
    · rw [creditScore_b3 b1 h2 h3, creditScore_b3 b2 (by linarith) k]
      have := floor_div_mono (b1 - 5000) (b2 - 5000) 50 (by norm_num) (by linarith)
      omega
    · have := creditScore_lt_10000 b1 h3
      have := creditScore_ge_650 b2 k
      omega
  rcases lt_or_le b1 25000 with h4 | h4
  · rcases lt_or_le b2 25000 with k | k
    · rw [creditScore_b4 b1 h3 h4, creditScore_b4 b2 (by linarith) k]
      have := floor_div_mono (b1 - 10000) (b2 - 10000) 150 (by norm_num) (by linarith)
      omega
    · have := creditScore_lt_25000 b1 h4
      have := creditScore_ge_750 b2 k
      omega
  rcases lt_or_le b1 50000 with h5 | h5
  · rcases lt_or_le b2 50000 with k | k
    · rw [creditScore_b5 b1 h4 h5, creditScore_b5 b2 (by linarith) k]
      have := floor_div_mono (b1 - 25000) (b2 - 25000) 500 (by norm_num) (by linarith)
      omega
    · have := creditScore_lt_50000 b1 h5
      have := creditScore_ge_800 b2 k
      omega
  · rw [creditScore_b6 b1 h5, creditScore_b6 b2 (by linarith)]
    have := floor_div_mono (b1 - 50000) (b2 - 50000) 2000 (by norm_num) (by linarith)
    exact min_le_min le_rfl (by omega)

/-- C16: the credit score that `updateCreditScore` computes is a non-decreasing function of
the balance: for balances b1 <= b2 the score of b1 is at most the score of b2, across every
bracket boundary. -/
theorem credit_score_monotone (st1 st2 : State) (h : st1.acc.balance ≤ st2.acc.balance) :
    updateCreditScore st1 ≤ updateCreditScore st2 ∧
    creditScore st1.acc.balance ≤ creditScore st2.acc.balance :=
  ⟨creditScore_le_of_le _ _ h, creditScore_le_of_le _ _ h⟩

/-- C16, across the bracket boundary at 1000: the scores are 449 and 450. -/
theorem credit_score_monotone_witness :
    (demoState (99999 / 100) []).acc.balance ≤ (demoState 1000 []).acc.balance ∧
    updateCreditScore (demoState (99999 / 100) []) ≤ updateCreditScore (demoState 1000 []) ∧
    updateCreditScore (demoState (99999 / 100) []) = 449 ∧
    updateCreditScore (demoState 1000 []) = 450 := by
  have h : (demoState (99999 / 100) []).acc.balance ≤ (demoState 1000 []).acc.balance := by
    norm_num [demoState]
  refine ⟨h, (credit_score_monotone _ _ h).1, ?_, ?_⟩
  · have hf : ⌊(99999 / 100 : ℚ) / 10⌋ = 99 := by
      rw [Int.floor_eq_iff]; constructor <;> norm_num
    unfold updateCreditScore
    rw [show (demoState (99999 / 100) []).acc.balance = 99999 / 100 from rfl,
      creditScore_b1 _ (by norm_num) (by norm_num), hf]
    norm_num
  · have hf : ⌊((1000 : ℚ) - 1000) / 40⌋ = 0 := by
      rw [Int.floor_eq_iff]; constructor <;> norm_num
    unfold updateCreditScore
    rw [show (demoState 1000 []).acc.balance = 1000 from rfl,
      creditScore_b2 _ (by norm_num) (by norm_num), hf]
    norm_num

/-! ## C17 -/

theorem digitVal_digitChar (k : Nat) (h : k < 16) : digitVal (Nat.digitChar k) = k := by
  interval_cases k <;> rfl

theorem digitsVal_append_singleton (b : Nat) (xs : List Char) (d : Char) :
    digitsVal b (xs ++ [d]) = digitsVal b xs * b + digitVal d := by
  unfold digitsVal
  rw [List.foldl_append]
  rfl

theorem toDigitsCore_spec (fuel : Nat) :
    ∀ (n : Nat) (ds : List Char), n < fuel →
      ∃ xs, Nat.toDigitsCore 16 fuel n ds = xs ++ ds ∧ digitsVal 16 xs = n := by
  induction fuel with
  | zero => intro n ds h; omega
  | succ f ih =>
    intro n ds h
    unfold Nat.toDigitsCore
    simp only []
    by_cases h0 : n / 16 = 0
    · rw [if_pos h0]
      refine ⟨[Nat.digitChar (n % 16)], rfl, ?_⟩
      have : digitsVal 16 [Nat.digitChar (n % 16)] = digitVal (Nat.digitChar (n % 16)) := by
        simp [digitsVal]
      rw [this, digitVal_digitChar _ (Nat.mod_lt _ (by norm_num))]
      omega
    · rw [if_neg h0]
      obtain ⟨xs, hxs, hv⟩ := ih (n / 16) (Nat.digitChar (n % 16) :: ds) (by omega)
      refine ⟨xs ++ [Nat.digitChar (n % 16)], ?_, ?_⟩
      · rw [hxs]; simp
      · rw [digitsVal_append_singleton, hv, digitVal_digitChar _ (Nat.mod_lt _ (by norm_num))]
        omega

/-- The hexadecimal text of a number reads back as the number. -/
theorem digitsVal_toDigits (n : Nat) : digitsVal 16 (Nat.toDigits 16 n) = n := by
  obtain ⟨xs, hxs, hv⟩ := toDigitsCore_spec (n + 1) n [] (by omega)
  unfold Nat.toDigits
  rw [hxs, List.append_nil, hv]

theorem toInt32_emod (n : Int) : toInt32 n % 4294967296 = n % 4294967296 := by
  unfold toInt32
  simp only []
  split_ifs <;> omega

theorem hashStep_emod (h h2 c : Int) (hh : h % 4294967296 = h2 % 4294967296) :
    ((toInt32 (toInt32 h * 32) + h) + c) % 4294967296 = (h2 * 33 + c) % 4294967296 := by
  have h1 := toInt32_emod h
  have h3 := toInt32_emod (toInt32 h * 32)
  omega

theorem flatMap_singleton_cast (codes : List Nat) :
    (codes.flatMap fun a => [(a : Int)]) = List.map (fun (n : Nat) => (n : Int)) codes := by
  induction codes with
  | nil => rfl
  | cons c r ih =>
    simp only [List.flatMap_cons, List.map_cons, List.singleton_append]
    rw [ih]

theorem hashLoop_eq (codes : List Nat) :
    hashLoop codes = (List.map (fun (n : Nat) => (n : Int)) codes).foldl
      (fun (h c : Int) => (toInt32 (toInt32 h * 32) + h) + c) 5381 := by
  unfold hashLoop
  simp
  rw [flatMap_singleton_cast]

theorem foldl_hash_emod (codes : List Int) :
    ∀ h h2 : Int, h % 4294967296 = h2 % 4294967296 →
      (codes.foldl (fun (h c : Int) => (toInt32 (toInt32 h * 32) + h) + c) h) % 4294967296 =
        (codes.foldl (fun (h c : Int) => h * 33 + c) h2) % 4294967296 := by
  induction codes with
  | nil => intro h h2 hh; exact hh
  | cons c r ih =>
    intro h h2 hh
    exact ih _ _ (hashStep_emod h h2 c hh)

/-- Modulo 2^32 the loop of `simpleHash` is the hash `h * 33 + c` from 5381. -/
theorem hashLoop_emod (codes : List Nat) :
    hashLoop codes % 4294967296 =
      ((List.map (fun (n : Nat) => (n : Int)) codes).foldl (fun (h c : Int) => h * 33 + c) 5381) %
        4294967296 := by
  rw [hashLoop_eq]
  exact foldl_hash_emod _ 5381 5381 rfl

theorem simpleHash_eq_imp (p q : String) (h : simpleHash p = simpleHash q) :
    hashLoop (charCodes p.data) % 4294967296 = hashLoop (charCodes q.data) % 4294967296 := by
  unfold simpleHash at h
  have h1 := congrArg String.data h
  simp only [List.cons.injEq, true_and] at h1
  have h2 := congrArg (digitsVal 16) h1
  rw [digitsVal_toDigits, digitsVal_toDigits] at h2
  have hp : 0 ≤ hashLoop (charCodes p.data) % 4294967296 := Int.emod_nonneg _ (by norm_num)
  have hq : 0 ≤ hashLoop (charCodes q.data) % 4294967296 := Int.emod_nonneg _ (by norm_num)
  omega

theorem isDecDigit_bounds (c : Char) (h : isDecDigit c = true) : 48 ≤ c.toNat ∧ c.toNat ≤ 57 := by
  simpa [isDecDigit] using h

theorem pin_shape (cs : List Char) (h : VALIDATION.PIN_PATTERN cs = true) :
    ∃ a b c d : Char, cs = [a, b, c, d] ∧
      (48 ≤ a.toNat ∧ a.toNat ≤ 57) ∧ (48 ≤ b.toNat ∧ b.toNat ≤ 57) ∧
      (48 ≤ c.toNat ∧ c.toNat ≤ 57) ∧ (48 ≤ d.toNat ∧ d.toNat ≤ 57) := by
  unfold VALIDATION.PIN_PATTERN at h
  simp only [Bool.and_eq_true, beq_iff_eq, List.all_eq_true] at h
  obtain ⟨hl, hd⟩ := h
  match cs, hl, hd with
  | [a, b, c, d], _, hd =>
    exact ⟨a, b, c, d, rfl, isDecDigit_bounds a (hd a (by simp)),
      isDecDigit_bounds b (hd b (by simp)), isDecDigit_bounds c (hd c (by simp)),
      isDecDigit_bounds d (hd d (by simp))⟩

theorem charCodes_pin (a b c d : Char) (ha : a.toNat ≤ 57) (hb : b.toNat ≤ 57)
    (hc : c.toNat ≤ 57) (hd : d.toNat ≤ 57) :
    charCodes [a, b, c, d] = [a.toNat, b.toNat, c.toNat, d.toNat] := by
  have u : ∀ x : Char, x.toNat ≤ 57 → utf16Units x = [x.toNat] := by
    intro x hx
    unfold utf16Units
    rw [if_pos (by omega)]
  simp [charCodes, u a ha, u b hb, u c hc, u d hd]

theorem char_eq_of_toNat_eq (a b : Char) (h : a.toNat = b.toNat) : a = b := by
  rw [← Char.ofNat_toNat a, ← Char.ofNat_toNat b, h]

/-- The hash separates any two texts of four decimal digits. -/
theorem simpleHash_pin_inj (p q : String) (hp : VALIDATION.PIN_PATTERN p.data = true)
    (hq : VALIDATION.PIN_PATTERN q.data = true) (h : simpleHash p = simpleHash q) : p = q := by
  obtain ⟨a, b, c, d, hpd, ha, hb, hc, hd⟩ := pin_shape _ hp
  obtain ⟨a2, b2, c2, d2, hqd, ha2, hb2, hc2, hd2⟩ := pin_shape _ hq
  have hm := simpleHash_eq_imp p q h
  rw [hashLoop_emod, hashLoop_emod, hpd, hqd, charCodes_pin a b c d ha.2 hb.2 hc.2 hd.2,
    charCodes_pin a2 b2 c2 d2 ha2.2 hb2.2 hc2.2 hd2.2] at hm
  simp only [List.map_cons, List.map_nil, List.foldl_cons, List.foldl_nil] at hm
  have hP : ((((5381 * 33 + (a.toNat : Int)) * 33 + b.toNat) * 33 + c.toNat) * 33 + d.toNat) %
      4294967296 =
      ((((5381 * 33 + (a.toNat : Int)) * 33 + b.toNat) * 33 + c.toNat) * 33 + d.toNat) -
        4294967296 := by omega
  have hQ : ((((5381 * 33 + (a2.toNat : Int)) * 33 + b2.toNat) * 33 + c2.toNat) * 33 +
      d2.toNat) % 4294967296 =
      ((((5381 * 33 + (a2.toNat : Int)) * 33 + b2.toNat) * 33 + c2.toNat) * 33 + d2.toNat) -
        4294967296 := by omega
  rw [hP, hQ] at hm
  have e4 : d.toNat = d2.toNat := by omega
  have e3 : c.toNat = c2.toNat := by omega
  have e2 : b.toNat = b2.toNat := by omega
  have e1 : a.toNat = a2.toNat := by omega
  have e : a.toNat = a2.toNat ∧ b.toNat = b2.toNat ∧ c.toNat = c2.toNat ∧
      d.toNat = d2.toNat := ⟨e1, e2, e3, e4⟩
  have : p.data = q.data := by
    rw [hpd, hqd, char_eq_of_toNat_eq a a2 e.1, char_eq_of_toNat_eq b b2 e.2.1,
      char_eq_of_toNat_eq c c2 e.2.2.1, char_eq_of_toNat_eq d d2 e.2.2.2]
  exact String.ext this

theorem isJsSpace_digit (c : Char) (h : 48 ≤ c.toNat ∧ c.toNat ≤ 57) : isJsSpace c = false := by
  rw [Bool.eq_false_iff]
  intro hs
  unfold isJsSpace at hs
  simp only [Bool.or_eq_true, beq_iff_eq, Bool.and_eq_true, decide_eq_true_eq] at hs
  omega

/-- Trimming leaves a text of four digits as it is. -/
theorem jsTrim_pin (cs : List Char) (h : VALIDATION.PIN_PATTERN cs = true) : jsTrim cs = cs := by
  obtain ⟨a, b, c, d, hcs, ha, -, -, hd⟩ := pin_shape cs h
  subst hcs
  unfold jsTrim
  rw [List.dropWhile_cons_of_neg (by simp [isJsSpace_digit a ha])]
  exact List.rdropWhile_concat_neg isJsSpace [a, b, c] d (by simp [isJsSpace_digit d hd])

/-- C17: `simpleHash` is injective on valid PINs: two distinct texts of exactly 4 decimal
digits have distinct hashes; so for a user whose stored hash is that of the 4-digit PIN p, a
login with a different 4-digit PIN q leaves the program state unchanged, and a change of PIN
that gives q as the current PIN is not accepted. -/
theorem pin_hash_injective (p q : String) (hp : VALIDATION.PIN_PATTERN p.data = true)
    (hq : VALIDATION.PIN_PATTERN q.data = true) (hne : p ≠ q) :
    simpleHash p ≠ simpleHash q ∧
    (∀ (y : Sys) (u : User) (liMobile gen1 gen2 now : String),
      y.store.bb_user = some u → u.pinHash = simpleHash p →
      (loginSubmit y liMobile q gen1 gen2 now).1 = y) ∧
    (∀ (st : State) (u : User) (newPin : String),
      st.user = some u → u.pinHash = simpleHash p →
      (changePinSubmit st q newPin).1 = false) := by
  have hh : simpleHash p ≠ simpleHash q := fun h => hne (simpleHash_pin_inj p q hp hq h)
  have hq2 : String.mk (jsTrim q.data) = q := by rw [jsTrim_pin _ hq]
  refine ⟨hh, ?_, ?_⟩
  · intro y u liMobile gen1 gen2 now hu hpin
    unfold loginSubmit
    simp only [hu, hq2, hpin]
    split_ifs
    · rfl
    · rfl
  · intro st u newPin hu hpin
    unfold changePinSubmit
    simp only [hu, hq2, hpin]
    split_ifs with h1 h2 h3
    · rfl
    · rfl
    · rfl
    · exact absurd (not_not.mp h2).symm hh

/-- C17, for the PINs `1234` and `4321`. -/
theorem pin_hash_injective_witness :
    VALIDATION.PIN_PATTERN "1234".data = true ∧ VALIDATION.PIN_PATTERN "4321".data = true ∧
    simpleHash "1234" ≠ simpleHash "4321" ∧
    (loginSubmit demoAnon "9876543210" "4321" "5150-2367-9012" "7341-1188-4520"
      "2024-05-02T08:00:00.000Z").1 = demoAnon := by
  have h := pin_hash_injective "1234" "4321" (by decide) (by decide) (by decide)
  exact ⟨by decide, by decide, h.1, h.2.1 demoAnon demoUser _ _ _ _ rfl rfl⟩

end Banking
